import Mathlib

/-!
Verification of the gait feature-extraction pipeline
(`feature_extraction.py`): silhouette box representation,
stride-distance estimation, gait-cycle segmentation, and the spatial,
temporal and wavelet feature aggregators.

Pixel geometry and stride distances are embedded as exact rationals;
square roots (Python `math.pow(x, 0.5)`) live in `ℝ`.  Fallible Python
code (`ZeroDivisionError`, `IndexError`, `TypeError`, `ValueError`)
is embedded as `Except PyErr`.
-/

namespace Gait

/-- Python runtime errors the embedded code can raise. -/
inductive PyErr where
  | zeroDivision
  | indexError
  | typeError
  | valueError
deriving DecidableEq

/-- A bounding rectangle as produced by `cv2.boundingRect`: width `w`,
height `h`, top-left corner `(x, y)`. -/
structure Box where
  w : ℚ
  h : ℚ
  x : ℚ
  y : ℚ
deriving DecidableEq

/-- The Python value `size_rect` returned by `draw_rectangle`
(lines 39-49): when exactly one contour is found the code assigns the
flat list `[w, h, x, y]`; otherwise `size_rect` is a (possibly empty)
list of such 4-lists, one per contour. -/
inductive SizeRect where
  | flat (b : Box)
  | boxes (l : List Box)
deriving DecidableEq

/-- `draw_rectangle` (lines 39-49), abstracted over the contour list the
silhouette measurement yields: for each contour it records `[w, h, x, y]`,
appending into a nested list when `len(cont) > 1` and assigning the flat
list when there is exactly one contour; with no contour `size_rect`
remains the initial empty list. -/
def draw_rectangle (cont : List Box) : SizeRect :=
  if 1 < cont.length then .boxes cont
  else
    match cont with
    | [b] => .flat b
    | _ => .boxes []

/-- Python `len(size_rect)`: a flat `[w, h, x, y]` has length 4, a
nested list has one entry per box. -/
def sizeRectLen : SizeRect → ℕ
  | .flat _ => 4
  | .boxes l => l.length

/-- Center used by `calc_stride_dist` (lines 70-71):
`(x + w/2, y + h/2)`. -/
def boxCenter (b : Box) : ℚ × ℚ := (b.x + b.w / 2, b.y + b.h / 2)

/-- `scipy.spatial.distance.euclidean` on two points. -/
noncomputable def euclidean (p q : ℚ × ℚ) : ℝ :=
  Real.sqrt (((p.1 : ℝ) - (q.1 : ℝ)) ^ 2 + ((p.2 : ℝ) - (q.2 : ℝ)) ^ 2)

/-- `calc_stride_dist` (lines 52-79), abstracted over the bounding boxes
the silhouette measurement yields on the masked frame: if
`len(rect_size) == 2` (a nested list of exactly two boxes — the flat
one-box list has length 4) it returns
`dist.euclidean(cent2, cent1)`; otherwise the sentinel distance 1. -/
noncomputable def calc_stride_dist (boxesIn : List Box) : ℝ :=
  match draw_rectangle boxesIn with
  | .boxes [b1, b2] => euclidean (boxCenter b2) (boxCenter b1)
  | _ => 1

/-- One frame's measurements as consumed by `calc_gait_cycle`
(lines 110-119): the frame's wavelet coefficients (held abstractly as
`α`, the tuple `(c_a, c_h, c_v, c_d)`), the stride distance computed by
`calc_stride_dist`, and the `size_rect` from `draw_rectangle`. -/
structure FrameMeas (α : Type) where
  coeffs : α
  stride_dist : ℚ
  size_rect : SizeRect

/-- The mutable state of `calc_gait_cycle` (lines 93-101), fields in
declaration order. -/
structure GaitState (α : Type) where
  step_count : ℕ
  coefficients : List (List α)
  coeff_temp : List α
  gait_sizes : List (List SizeRect)
  cycle_sizes : List SizeRect
  step_lengths : List (List ℚ)
  frame_count : ℕ
  n_size : List ℕ
  gap_legs : List ℚ
deriving DecidableEq

/-- The initial state of `calc_gait_cycle`. -/
def initGaitState (α : Type) : GaitState α :=
  ⟨0, [], [], [], [], [], 0, [], []⟩

/-- One iteration of the `while` loop of `calc_gait_cycle`
(lines 110-133) on a successfully read frame: increment `frame_count`,
append the wavelet coefficients and `size_rect`, test
`len(gap_legs) > 2 and stride_dist < gap_legs[len(gap_legs) - 1]
and stride_dist > 40`; on a boundary, seal the buffers (the freshly
appended coefficient and box belong to the sealed cycle), record the
running `frame_count` in `n_size` (the code never resets
`frame_count`), reset the buffers and bump `step_count`; afterwards
`gap_legs.append(stride_dist)`. -/
def gaitStep {α : Type} (s : GaitState α) (f : FrameMeas α) : GaitState α :=
  let fc := s.frame_count + 1
  let ct := s.coeff_temp ++ [f.coeffs]
  let cs := s.cycle_sizes ++ [f.size_rect]
  if 2 < s.gap_legs.length ∧ f.stride_dist < s.gap_legs.getLastD 0 ∧
      40 < f.stride_dist then
    { step_count := s.step_count + 1
      coefficients := s.coefficients ++ [ct]
      coeff_temp := []
      gait_sizes := s.gait_sizes ++ [cs]
      cycle_sizes := []
      step_lengths := s.step_lengths ++ [s.gap_legs]
      frame_count := fc
      n_size := s.n_size ++ [fc]
      gap_legs := [f.stride_dist] }
  else
    { s with
      frame_count := fc
      coeff_temp := ct
      cycle_sizes := cs
      gap_legs := s.gap_legs ++ [f.stride_dist] }

/-- `calc_gait_cycle` (lines 82-135) on a finite frame stream: fold the
loop body over the frames; the final state carries the returned values
`step_count`, `gait_sizes`, `n_size`, `step_lengths`, `coefficients`
(any partially filled buffers are simply left unsealed). -/
def calc_gait_cycle {α : Type} (frames : List (FrameMeas α)) : GaitState α :=
  frames.foldl gaitStep (initGaitState α)

/-- A frame carrying only a stride distance (wavelet coefficients and
boxes irrelevant), for feeding the segmenter synthetic distance
streams. -/
def distFrame (d : ℚ) : FrameMeas Unit := ⟨(), d, .boxes []⟩

/-- The stride-distance stream of the spec's synthetic 10-frame clip. -/
def scenarioDists : List ℚ := [5, 10, 20, 35, 50, 30, 10, 5, 8, 12]

/-- A stride-distance stream producing two sealed cycles: boundaries
fire at frame 5 (50 < 60, 50 > 40) and frame 8 (45 < 60, 45 > 40). -/
def twoCycleDists : List ℚ := [10, 20, 30, 60, 50, 55, 60, 45]

/-- Python list indexing `l[i]`: `IndexError` when out of range. -/
def pyIndex {β : Type} (l : List β) (i : ℕ) : Except PyErr β :=
  match l.get? i with
  | some v => .ok v
  | none => .error .indexError

/-- Python true division of a number by an integer count:
`ZeroDivisionError` when the count is 0. -/
def pyDiv (q : ℚ) (n : ℕ) : Except PyErr ℚ :=
  if n = 0 then .error .zeroDivision else .ok (q / n)

/-- Python `max` over a list: `ValueError` on an empty list. -/
def pyMax (l : List ℚ) : Except PyErr ℚ :=
  match l with
  | [] => .error .valueError
  | v :: rest => .ok (rest.foldl max v)

/-- A Python list comprehension: applies `f` left to right, raising the
first error encountered. -/
def pyMap {β γ : Type} (f : β → Except PyErr γ) : List β → Except PyErr (List γ)
  | [] => .ok []
  | e :: rest => do
    let v ← f e
    let vs ← pyMap f rest
    return v :: vs

/-- Python `sum` as a left fold from an accumulator: adding a number is
fine, adding a list value (an inner 4-list of a nested `size_rect`)
raises `TypeError`. -/
def pySum : List (ℚ ⊕ Box) → ℚ → Except PyErr ℚ
  | [], acc => .ok acc
  | .inl q :: rest, acc => pySum rest (acc + q)
  | .inr _ :: _, _ => .error .typeError

/-- `element[k]` for one frame's `size_rect` in the comprehensions of
`calc_spatial_component` (lines 159-160): a flat entry `[w, h, x, y]`
yields the number at position `k`; a nested entry yields its inner
4-list (a list value) when position `k` exists, else `IndexError`. -/
def entryElem (e : SizeRect) (k : ℕ) : Except PyErr (ℚ ⊕ Box) :=
  match e with
  | .flat b =>
    match k with
    | 0 => .ok (.inl b.w)
    | 1 => .ok (.inl b.h)
    | 2 => .ok (.inl b.x)
    | 3 => .ok (.inl b.y)
    | _ => .error .indexError
  | .boxes l =>
    match l.get? k with
    | some b => .ok (.inr b)
    | none => .error .indexError

/-- `sum([element[k] for element in entries])` (lines 159-160). -/
def sumElem (entries : List SizeRect) (k : ℕ) : Except PyErr ℚ := do
  let vals ← pyMap (fun e => entryElem e k) entries
  pySum vals 0

/-- `element[1]/element[0]` in the angle/aspect-ratio comprehensions
(lines 161-162): Python evaluates `element[1]` first.  Two flat numbers
divide (`ZeroDivisionError` when the stored `w` is 0); on a nested
entry with at least two inner lists the division of two list values
raises `TypeError`, and with fewer the lookup `element[1]` raises
`IndexError`. -/
def entryRatio (e : SizeRect) : Except PyErr ℚ :=
  match e with
  | .flat b => if b.w = 0 then .error .zeroDivision else .ok (b.h / b.w)
  | .boxes l => if 2 ≤ l.length then .error .typeError else .error .indexError

/-- `sum([math.atan(element[1]/element[0]) for element in entries])`
(line 161), with `math.atan` abstracted as `atn`. -/
def sumAtan (entries : List SizeRect) (atn : ℚ → ℚ) : Except PyErr ℚ := do
  let rs ← pyMap entryRatio entries
  return (rs.map atn).sum

/-- `sum([element[1]/element[0] for element in entries])` (line 162). -/
def sumRatio (entries : List SizeRect) : Except PyErr ℚ := do
  let rs ← pyMap entryRatio entries
  return rs.sum

/-- The body of the `for i in range(step_count)` loop of
`calc_spatial_component` for one cycle (lines 159-162): the four sums
over the cycle's frame entries, each divided by the recorded frame
count (`ZeroDivisionError` when that count is 0). -/
def spatial_cycle (entries : List SizeRect) (nf : ℕ) (atn : ℚ → ℚ) :
    Except PyErr (ℚ × ℚ × ℚ × ℚ) := do
  let hsum ← sumElem entries 0
  let hmean ← pyDiv hsum nf
  let wsum ← sumElem entries 1
  let wmean ← pyDiv wsum nf
  let asum ← sumAtan entries atn
  let amean ← pyDiv asum nf
  let arsum ← sumRatio entries
  let armean ← pyDiv arsum nf
  return (hmean, wmean, amean, armean)

/-- The loop of `calc_spatial_component` over the cycle indices,
accumulating the four running totals (lines 158-168). -/
def spatial_loop (rect_sizes : List (List SizeRect)) (num_frames : List ℕ)
    (atn : ℚ → ℚ) : List ℕ → ℚ × ℚ × ℚ × ℚ → Except PyErr (ℚ × ℚ × ℚ × ℚ)
  | [], acc => .ok acc
  | i :: rest, acc => do
    let entries ← pyIndex rect_sizes i
    let nf ← pyIndex num_frames i
    let m ← spatial_cycle entries nf atn
    spatial_loop rect_sizes num_frames atn rest
      (acc.1 + m.1, acc.2.1 + m.2.1, acc.2.2.1 + m.2.2.1, acc.2.2.2 + m.2.2.2)

/-- `calc_spatial_component` (lines 138-171), with `math.atan`
abstracted as `atn`: run the per-cycle loop over `range(step_count)`,
then return each total scaled by `2/step_count`; when `step_count = 0`
the final division raises `ZeroDivisionError`. -/
def calc_spatial_component (step_count : ℕ) (rect_sizes : List (List SizeRect))
    (num_frames : List ℕ) (atn : ℚ → ℚ) : Except PyErr (ℚ × ℚ × ℚ × ℚ) := do
  let acc ← spatial_loop rect_sizes num_frames atn (List.range step_count)
    (0, 0, 0, 0)
  if step_count = 0 then .error .zeroDivision
  else
    return (acc.1 * 2 / step_count, acc.2.1 * 2 / step_count,
      acc.2.2.1 * 2 / step_count, acc.2.2.2 * 2 / step_count)

/-- The numeric value of the OpenCV property identifier
`cv2.CAP_PROP_FPS`, namely 5.  Line 196 multiplies by this identifier
itself, not by the frame rate it names. -/
def CAP_PROP_FPS : ℚ := 5

/-- `calc_temporal_component` (lines 174-204): per cycle, add the
maximum stride distance (`ValueError` on an empty cycle) and the
cadence contribution `(1/len(cycle)) * cv2.CAP_PROP_FPS`; afterwards
divide both totals by the number of cycles (`ZeroDivisionError` when
there are none) and derive `stride_len = 2 * step_len` and
`speed = stride_len * 0.5 * mean_cadence`. -/
def calc_temporal_component (step_lengths : List (List ℚ)) :
    Except PyErr (ℚ × ℚ × ℚ × ℚ) := do
  let acc ← step_lengths.foldlM
    (fun (acc : ℚ × ℚ) cyc => do
      let m ← pyMax cyc
      let steps ← pyDiv 1 cyc.length
      return (acc.1 + m, acc.2 + steps * CAP_PROP_FPS))
    ((0 : ℚ), (0 : ℚ))
  if step_lengths.length = 0 then .error .zeroDivision
  else
    let mean_cadence := acc.2 / step_lengths.length
    let step_len := acc.1 / step_lengths.length
    let stride_len := 2 * step_len
    let speed := stride_len * (1 / 2) * mean_cadence
    return (step_len, stride_len, mean_cadence, speed)

/-- A 2-D coefficient matrix, entries as exact rationals. -/
abbrev Mat := List (List ℚ)

/-- `np.sum(m, axis=None)`: the sum of every entry of the matrix. -/
def npsum (m : Mat) : ℚ := (m.map List.sum).sum

/-- One frame's single-level 2-D Haar decomposition
`(c_a, c_h, c_v, c_d)` as appended on line 114. -/
structure Coeffs where
  ca : Mat
  ch : Mat
  cv : Mat
  cd : Mat

/-- `calc_stand_deviation` (lines 207-221):
`math.pow(1/(frames-1), 0.5) * math.pow(sum_squares, 0.5)`.
`frames = 1` raises `ZeroDivisionError` at `1/(frames - 1)`;
`frames = 0` makes the base `-1`, and `math.pow` of a negative base
with exponent 0.5 raises `ValueError`. -/
noncomputable def calc_stand_deviation (coefficient_list : List ℚ) (frames : ℕ)
    (mean : ℚ) : Except PyErr ℝ :=
  if frames = 1 then .error .zeroDivision
  else if frames = 0 then .error .valueError
  else
    .ok (Real.sqrt (1 / ((frames : ℝ) - 1)) *
      Real.sqrt (((coefficient_list.map (fun ele => (ele - mean) ^ 2)).sum : ℚ) : ℝ))

/-- One iteration of the `calc_wavelet_component` loop (lines 239-255):
reduce the approx/horiz/vert matrices of each frame to full-matrix
sums, then compute each band's mean (sum divided by the recorded frame
count, `ZeroDivisionError` when it is 0) and standard deviation. -/
noncomputable def wavelet_cycle (cycleCoeffs : List Coeffs) (n : ℕ) :
    Except PyErr (List (ℚ × ℝ)) := do
  let coefficient_1 := cycleCoeffs.map (fun e => npsum e.ca)
  let coefficient_2 := cycleCoeffs.map (fun e => npsum e.ch)
  let coefficient_3 := cycleCoeffs.map (fun e => npsum e.cv)
  let mean_1 ← pyDiv coefficient_1.sum n
  let stand_1 ← calc_stand_deviation coefficient_1 n mean_1
  let mean_2 ← pyDiv coefficient_2.sum n
  let stand_2 ← calc_stand_deviation coefficient_2 n mean_2
  let mean_3 ← pyDiv coefficient_3.sum n
  let stand_3 ← calc_stand_deviation coefficient_3 n mean_3
  return [(mean_1, stand_1), (mean_2, stand_2), (mean_3, stand_3)]

/-- `calc_wavelet_component` (lines 224-257): loop over the cycles,
reading the recorded frame count at the same index (`IndexError` when
`noof_frames` is shorter than `haar_coeff`). -/
noncomputable def calc_wavelet_component :
    List (List Coeffs) → List ℕ → Except PyErr (List (List (ℚ × ℝ)))
  | [], _ => .ok []
  | _ :: _, [] => .error .indexError
  | hc :: hcs, n :: ns => do
    let wf ← wavelet_cycle hc n
    let rest ← calc_wavelet_component hcs ns
    return wf :: rest

/-- The spec's per-band statistic, stated from the spec's words for
comparison with `wavelet_cycle`: the mean is the sum of the per-frame
scalars divided by the frame count, and the standard deviation is
`sqrt((1/(n-1)) * Σ (x_i - mean)^2)` (Bessel's correction). -/
noncomputable def waveletBandSpec (xs : List ℚ) (n : ℕ) : ℚ × ℝ :=
  let mean := xs.sum / (n : ℚ)
  (mean, Real.sqrt ((1 / ((n : ℝ) - 1)) *
    (((xs.map (fun x => (x - mean) ^ 2)).sum : ℚ) : ℝ)))

/-- The spec's three-band summary of one cycle, in band order
approx, horiz, vert (the diag band is unused). -/
noncomputable def waveletSpecCycle (cycleCoeffs : List Coeffs) (n : ℕ) :
    List (ℚ × ℝ) :=
  [waveletBandSpec (cycleCoeffs.map (fun e => npsum e.ca)) n,
   waveletBandSpec (cycleCoeffs.map (fun e => npsum e.ch)) n,
   waveletBandSpec (cycleCoeffs.map (fun e => npsum e.cv)) n]

/-- A concrete one-frame Haar decomposition with band sums 1, 2, 3, 4. -/
def sampleCoeffs : Coeffs := ⟨[[1]], [[2]], [[3]], [[4]]⟩

end Gait

namespace Gait

/-!  Theorems about the Gait Cycle Segmenter. -/

/-- C1 counterexample: on the spec's synthetic clip
`[5,10,20,35,50,30,10,5,8,12]` the Segmenter fires no boundary at all —
`step_count` ends at 0 and no cycle is sealed — because at frame
index 5 the new distance 30 fails the threshold test `stride_dist > 40`
(the code applies the threshold to the new sample, not to the previous
sample 50 as the scenario assumed). -/
theorem scenario_no_boundary :
    (calc_gait_cycle (scenarioDists.map distFrame)).step_count = 0 ∧
    (calc_gait_cycle (scenarioDists.map distFrame)).gait_sizes = [] := by
  decide

/-- C1 (amended): fed `[5,10,20,35,50,30,10,5,8,12]` frame by frame with
warm-up 3 and threshold 40, the Segmenter fires no cycle boundary:
the only decreasing step past warm-up with the previous sample above 40
is at frame index 5, but its new distance 30 is not strictly greater
than 40, so no cycle is sealed, `step_count = 0`, `n_size` stays empty,
and all ten distances remain in the in-progress stride buffer. -/
theorem scenario_amended :
    (calc_gait_cycle (scenarioDists.map distFrame)).step_count = 0 ∧
    (calc_gait_cycle (scenarioDists.map distFrame)).n_size = [] ∧
    (calc_gait_cycle (scenarioDists.map distFrame)).gait_sizes = [] ∧
    (calc_gait_cycle (scenarioDists.map distFrame)).gap_legs = scenarioDists := by
  decide

/-- C2 (code bug, evaluated): on the stream
`[10,20,30,60,50,55,60,45]` the Segmenter seals two cycles but reports
`n_size = [5, 8]`: `frame_count` is never reset, so the recorded counts
are cumulative.  The sealed cycles' bounding-box and wavelet sequences
have lengths `[5, 3]` while their stride-distance sequences have
lengths `[4, 3]` (the boundary-triggering distance goes to the next
cycle's buffer while its box and wavelet entries go to the sealed one).
Hence the claimed equality of `frame_count` with all three per-cycle
sequence lengths fails. -/
theorem frame_count_not_per_cycle :
    (calc_gait_cycle (twoCycleDists.map distFrame)).n_size = [5, 8] ∧
    (calc_gait_cycle (twoCycleDists.map distFrame)).gait_sizes.map List.length
      = [5, 3] ∧
    (calc_gait_cycle (twoCycleDists.map distFrame)).step_lengths.map List.length
      = [4, 3] ∧
    (calc_gait_cycle (twoCycleDists.map distFrame)).coefficients.map List.length
      = [5, 3] := by
  decide

/-- C3: a frame seals the in-progress buffers (appending the sealed
cycle's boxes, frame count, stride distances and wavelet coefficients)
and increments `step_count` if and only if at least 3 stride-distance
samples are already buffered, the new stride distance is strictly
below the last buffered one, and the new stride distance is strictly
above 40; consequently no seal ever happens on a sample ≤ 40 nor
before the 3-sample warm-up. -/
theorem gait_boundary_iff {α : Type} (s : GaitState α) (f : FrameMeas α) :
    ((gaitStep s f).step_count = s.step_count + 1 ∧
     (gaitStep s f).gait_sizes = s.gait_sizes ++ [s.cycle_sizes ++ [f.size_rect]] ∧
     (gaitStep s f).n_size = s.n_size ++ [s.frame_count + 1] ∧
     (gaitStep s f).step_lengths = s.step_lengths ++ [s.gap_legs] ∧
     (gaitStep s f).coefficients = s.coefficients ++ [s.coeff_temp ++ [f.coeffs]]) ↔
    (3 ≤ s.gap_legs.length ∧ f.stride_dist < s.gap_legs.getLastD 0 ∧
     40 < f.stride_dist) := by
  unfold gaitStep
  split_ifs with h
  · exact ⟨fun _ => h, fun _ => ⟨rfl, rfl, rfl, rfl, rfl⟩⟩
  · constructor
    · intro hl
      exact absurd hl.1 (by simp)
    · intro hr
      exact absurd hr h

/-- C3 witness: sealing actually occurs on a concrete state (stride
buffer `[5, 10, 50]`) and frame (distance 45): the condition holds and
`step_count` goes from 0 to 1. -/
theorem gait_boundary_iff_witness :
    (gaitStep (⟨0, [], [], [], [], [], 0, [], [5, 10, 50]⟩ : GaitState Unit)
      ⟨(), 45, .boxes []⟩).step_count = 0 + 1 :=
  ((gait_boundary_iff _ _).mpr ⟨by decide, by decide, by decide⟩).1

/-- The Euclidean distance is symmetric in its two points. -/
theorem euclidean_comm (p q : ℚ × ℚ) : euclidean p q = euclidean q p := by
  unfold euclidean
  rw [show ((p.1 : ℝ) - (q.1 : ℝ)) ^ 2 + ((p.2 : ℝ) - (q.2 : ℝ)) ^ 2
      = ((q.1 : ℝ) - (p.1 : ℝ)) ^ 2 + ((q.2 : ℝ) - (p.2 : ℝ)) ^ 2 by ring]

/-- C4: when the silhouette measurement of the masked frame yields
exactly two bounding boxes, `calc_stride_dist` returns the Euclidean
distance between the two box centers (top-left corner plus half of
width and half of height); for zero, one, or more than two boxes it
returns the sentinel 1 (in particular, a single box is stored as the
flat 4-element list, whose Python length 4 also fails the
`len(rect_size) == 2` test). -/
theorem stride_dist_spec (boxesIn : List Box) :
    (∀ b1 b2, boxesIn = [b1, b2] →
      calc_stride_dist boxesIn = euclidean (boxCenter b1) (boxCenter b2)) ∧
    (boxesIn.length ≠ 2 → calc_stride_dist boxesIn = 1) := by
  constructor
  · rintro b1 b2 rfl
    have h : calc_stride_dist [b1, b2] = euclidean (boxCenter b2) (boxCenter b1) :=
      rfl
    rw [h, euclidean_comm]
  · intro hlen
    match boxesIn, hlen with
    | [], _ => rfl
    | [a], _ => rfl
    | [a, b], h => exact absurd rfl h
    | a :: b :: c :: t, _ =>
      have hd : draw_rectangle (a :: b :: c :: t) = .boxes (a :: b :: c :: t) := by
        unfold draw_rectangle
        rw [if_pos (by simp only [List.length_cons]; omega)]
      unfold calc_stride_dist
      rw [hd]

/-- C4 witness: two concrete boxes with centers (1,1) and (4,5) give
stride distance 5; a single box gives the sentinel 1. -/
theorem stride_dist_spec_witness :
    calc_stride_dist [⟨2, 2, 0, 0⟩, ⟨2, 2, 3, 4⟩] = 5 ∧
    calc_stride_dist [⟨2, 2, 0, 0⟩] = 1 := by
  constructor
  · rw [(stride_dist_spec _).1 ⟨2, 2, 0, 0⟩ ⟨2, 2, 3, 4⟩ rfl]
    unfold euclidean boxCenter
    norm_num
    rw [show ((25 : ℝ)) = 5 ^ 2 by norm_num]
    exact Real.sqrt_sq (by norm_num)
  · exact (stride_dist_spec _).2 (by decide)

/-!  Helper lemmas about the `Except` monad and the Python primitives. -/

/-- Binding a successful `Except` computation applies the continuation. -/
theorem exc_bind_ok {ε α β : Type} (a : α) (f : α → Except ε β) :
    (Except.ok a >>= f : Except ε β) = f a := rfl

/-- Binding a failed `Except` computation propagates the error. -/
theorem exc_bind_error {ε α β : Type} (e : ε) (f : α → Except ε β) :
    ((Except.error e : Except ε α) >>= f : Except ε β) = .error e := rfl

/-- `pure` into `Except` is `.ok`. -/
theorem exc_pure {ε α : Type} (a : α) : (pure a : Except ε α) = .ok a := rfl

/-- Dividing by a nonzero count succeeds with the exact quotient. -/
theorem pyDiv_ok {n : ℕ} (h : n ≠ 0) (q : ℚ) : pyDiv q n = .ok (q / n) := by
  unfold pyDiv
  rw [if_neg h]

/-- With at least two frames, `calc_stand_deviation` succeeds and its
product of square roots collapses to the single square root of the
product (both factors are nonnegative). -/
theorem calc_stand_deviation_ok {n : ℕ} (hn : 2 ≤ n) (l : List ℚ) (mean : ℚ) :
    calc_stand_deviation l n mean =
      .ok (Real.sqrt ((1 / ((n : ℝ) - 1)) *
        (((l.map (fun ele => (ele - mean) ^ 2)).sum : ℚ) : ℝ))) := by
  unfold calc_stand_deviation
  rw [if_neg (by omega : n ≠ 1), if_neg (by omega : n ≠ 0)]
  have hnn : (0 : ℝ) ≤ 1 / ((n : ℝ) - 1) := by
    apply div_nonneg
    · norm_num
    · have h2 : (2 : ℝ) ≤ (n : ℝ) := by exact_mod_cast hn
      linarith
  rw [Real.sqrt_mul hnn]

/-- A successful `pySum` saw only number values (no nested list). -/
theorem pySum_ok_inl : ∀ {vals : List (ℚ ⊕ Box)} {acc q : ℚ},
    pySum vals acc = .ok q → ∀ v ∈ vals, ∃ x : ℚ, v = .inl x := by
  intro vals
  induction vals with
  | nil => intro acc q h v hv; simp at hv
  | cons v0 rest ih =>
    intro acc q h v hv
    match v0, h with
    | .inl x, h =>
      rcases List.mem_cons.mp hv with rfl | hv2
      · exact ⟨x, rfl⟩
      · exact ih h v hv2
    | .inr b, h => exact absurd h (by simp [pySum])

/-- A successful comprehension evaluated `f` successfully on every
element, and each result is among the collected values. -/
theorem pyMap_ok_forall {β γ : Type} {f : β → Except PyErr γ} :
    ∀ {l : List β} {vs : List γ}, pyMap f l = .ok vs →
      ∀ e ∈ l, ∃ v, f e = .ok v ∧ v ∈ vs := by
  intro l
  induction l with
  | nil => intro vs h e he; simp at he
  | cons e0 rest ih =>
    intro vs h e he
    simp only [pyMap] at h
    cases hfe : f e0 with
    | error err => rw [hfe, exc_bind_error] at h; cases h
    | ok v0 =>
      rw [hfe, exc_bind_ok] at h
      cases hrest : pyMap f rest with
      | error err => rw [hrest, exc_bind_error] at h; cases h
      | ok vs0 =>
        rw [hrest, exc_bind_ok, exc_pure] at h
        cases h
        rcases List.mem_cons.mp he with rfl | he2
        · exact ⟨v0, hfe, List.mem_cons_self _ _⟩
        · obtain ⟨v, hv, hvm⟩ := ih hrest e he2
          exact ⟨v, hv, List.mem_cons_of_mem _ hvm⟩

/-- Successful indexing returns an element actually at that position. -/
theorem pyIndex_ok {β : Type} {l : List β} {i : ℕ} {v : β}
    (h : pyIndex l i = .ok v) : l.get? i = some v := by
  unfold pyIndex at h
  cases hg : l.get? i with
  | none => rw [hg] at h; cases h
  | some u => rw [hg] at h; cases h; rfl

/-- If `sum([element[0] for element in entries])` succeeds, every frame
entry is a flat one-box record. -/
theorem sumElem_ok_flat {entries : List SizeRect} {q : ℚ}
    (h : sumElem entries 0 = .ok q) :
    ∀ e ∈ entries, ∃ b, e = SizeRect.flat b := by
  unfold sumElem at h
  cases hm : pyMap (fun e => entryElem e 0) entries with
  | error err => rw [hm, exc_bind_error] at h; cases h
  | ok vals =>
    rw [hm, exc_bind_ok] at h
    intro e he
    obtain ⟨v, hv, hvm⟩ := pyMap_ok_forall hm e he
    obtain ⟨x, rfl⟩ := pySum_ok_inl h v hvm
    cases e with
    | flat b => exact ⟨b, rfl⟩
    | boxes l =>
      exfalso
      cases l with
      | nil => simp [entryElem] at hv
      | cons b t => simp [entryElem] at hv

/-- If the spatial loop body succeeds on a cycle, every frame entry of
that cycle is a flat one-box record. -/
theorem spatial_cycle_ok_flat {entries : List SizeRect} {nf : ℕ} {atn : ℚ → ℚ}
    {r : ℚ × ℚ × ℚ × ℚ} (h : spatial_cycle entries nf atn = .ok r) :
    ∀ e ∈ entries, ∃ b, e = SizeRect.flat b := by
  unfold spatial_cycle at h
  cases hs : sumElem entries 0 with
  | error err => rw [hs, exc_bind_error] at h; cases h
  | ok q => exact sumElem_ok_flat hs

/-- If the spatial loop succeeds over a list of cycle indices, each
indexed cycle exists and all its frame entries are flat one-box
records. -/
theorem spatial_loop_ok_flat {rs : List (List SizeRect)} {nfs : List ℕ}
    {atn : ℚ → ℚ} : ∀ {idxs : List ℕ} {acc r : ℚ × ℚ × ℚ × ℚ},
      spatial_loop rs nfs atn idxs acc = .ok r →
      ∀ i ∈ idxs, ∃ entries, rs.get? i = some entries ∧
        ∀ e ∈ entries, ∃ b, e = SizeRect.flat b := by
  intro idxs
  induction idxs with
  | nil => intro acc r h i hi; simp at hi
  | cons i0 rest ih =>
    intro acc r h i hi
    simp only [spatial_loop] at h
    cases hpi : pyIndex rs i0 with
    | error err => rw [hpi, exc_bind_error] at h; cases h
    | ok entries =>
      rw [hpi, exc_bind_ok] at h
      cases hpn : pyIndex nfs i0 with
      | error err => rw [hpn, exc_bind_error] at h; cases h
      | ok nf =>
        rw [hpn, exc_bind_ok] at h
        cases hsc : spatial_cycle entries nf atn with
        | error err => rw [hsc, exc_bind_error] at h; cases h
        | ok m =>
          rw [hsc, exc_bind_ok] at h
          rcases List.mem_cons.mp hi with rfl | hi2
          · exact ⟨entries, pyIndex_ok hpi, spatial_cycle_ok_flat hsc⟩
          · exact ih h i hi2

/-- With at least two frames in the cycle, one iteration of the wavelet
loop computes exactly the spec's three-band summary. -/
theorem wavelet_cycle_spec (cs : List Coeffs) (n : ℕ) (hn : 2 ≤ n) :
    wavelet_cycle cs n = .ok (waveletSpecCycle cs n) := by
  have h0 : n ≠ 0 := by omega
  simp only [wavelet_cycle, waveletSpecCycle, waveletBandSpec,
    pyDiv_ok h0, calc_stand_deviation_ok hn, bind, Except.bind, pure, Except.pure]

/-!  Theorems about the aggregators. -/

/-- C5: whenever each cycle's recorded frame count `n` is at least 2,
`calc_wavelet_component` returns, for every cycle and each of the three
bands approx/horiz/vert, the mean equal to the sum of the cycle's
per-frame full-matrix sums divided by `n`, and the standard deviation
equal to `sqrt((1/(n-1)) * Σ (x_i - mean)^2)` — i.e. exactly the
spec-side `waveletSpecCycle` summary, cycle by cycle. -/
theorem calc_wavelet_spec (hc : List (List Coeffs)) (ns : List ℕ)
    (hlen : hc.length ≤ ns.length) (hn : ∀ n ∈ ns, 2 ≤ n) :
    calc_wavelet_component hc ns = .ok (List.zipWith waveletSpecCycle hc ns) := by
  induction hc generalizing ns with
  | nil => simp [calc_wavelet_component]
  | cons c cs ih =>
    cases ns with
    | nil => simp at hlen
    | cons n ns2 =>
      have hn2 : 2 ≤ n := hn n (List.mem_cons_self _ _)
      simp only [calc_wavelet_component, wavelet_cycle_spec c n hn2,
        bind, Except.bind, pure, Except.pure, List.zipWith]
      rw [ih ns2 (by simpa using hlen) (fun m hm => hn m (List.mem_cons_of_mem _ hm))]

/-- C5 witness: a two-frame cycle whose per-frame band sums are all
`[1, 1]`, `[2, 2]`, `[3, 3]` evaluates to means 1, 2, 3 with standard
deviation 0 in every band. -/
theorem calc_wavelet_spec_witness :
    calc_wavelet_component [[sampleCoeffs, sampleCoeffs]] [2]
      = .ok [[((1 : ℚ), (0 : ℝ)), (2, 0), (3, 0)]] := by
  rw [calc_wavelet_spec [[sampleCoeffs, sampleCoeffs]] [2] (by decide) (by decide)]
  simp [waveletSpecCycle, waveletBandSpec, sampleCoeffs, npsum]

/-- C6 (code bug, evaluated): for one cycle of a single frame whose only
box has width 3 and height 4 (stored as the flat record
`[w, h, x, y] = [3, 4, 0, 0]`), `calc_spatial_component` returns
`(6, 8, 8/3, 8/3)`: its first output is `2 * 3`, built from the stored
widths (`element[0]`), and its second is `2 * 4`, built from the
heights — the opposite of the claimed mean_height-from-heights /
mean_width-from-widths. -/
theorem spatial_swaps_height_width :
    calc_spatial_component 1 [[SizeRect.flat ⟨3, 4, 0, 0⟩]] [1] id
      = .ok (6, 8, 8 / 3, 8 / 3) := by
  simp only [calc_spatial_component, spatial_loop, spatial_cycle, sumElem, pyMap,
    entryElem, pySum, sumAtan, sumRatio, entryRatio, pyIndex, pyDiv,
    List.range_succ, List.range_zero, List.nil_append, List.get?,
    bind, Except.bind, pure, Except.pure, List.map, List.sum, id]
  norm_num

/-- C7 (code bug, evaluated): `calc_temporal_component` takes no
frames-per-second parameter; on the single cycle `[10, 20]` it returns
cadence `5/2`, i.e. `CAP_PROP_FPS / 2` where `CAP_PROP_FPS = 5` is the
numeric value of the OpenCV property identifier `cv2.CAP_PROP_FPS`,
not the video's frame rate (step length 20, stride length 40,
speed 50). -/
theorem temporal_cadence_constant :
    calc_temporal_component [[10, 20]] = .ok (20, 40, 5 / 2, 50) := by
  simp only [calc_temporal_component, pyMax, pyDiv, CAP_PROP_FPS, List.foldlM,
    bind, Except.bind, pure, Except.pure, List.length, List.foldl]
  norm_num

/-- C8 (code bug, evaluated): with `step_count = 0` and no cycles, the
spatial aggregator reaches `mean_height * 2/step_count` and the
temporal aggregator reaches `mean_cadence /= len(step_lengths)`, and
both raise `ZeroDivisionError` instead of returning an
insufficient-data result. -/
theorem no_cycles_arithmetic_fault :
    calc_spatial_component 0 [] [] id = .error .zeroDivision ∧
    calc_temporal_component [] = .error .zeroDivision :=
  ⟨rfl, rfl⟩

/-- C9 (code bug, evaluated): a single cycle with recorded frame count 1
makes `calc_stand_deviation` evaluate `1/(frames - 1) = 1/0`, so
`calc_wavelet_component` raises `ZeroDivisionError` instead of
flagging, excluding, or reporting NaN for the cycle. -/
theorem single_frame_cycle_fault :
    calc_wavelet_component [[sampleCoeffs]] [1] = .error .zeroDivision :=
  rfl

/-- C10: whenever `calc_spatial_component` returns a result (does not
raise), every frame entry of every processed cycle (indices below
`step_count`) is a flat one-box record `[w, h, x, y]`: an empty entry
would raise `IndexError` in the comprehension and a nested entry would
raise `TypeError` in the summation, so the non-failing branch requires
exactly one recorded box per frame. -/
theorem spatial_requires_single_box (step_count : ℕ)
    (rect_sizes : List (List SizeRect)) (num_frames : List ℕ) (atn : ℚ → ℚ)
    (out : ℚ × ℚ × ℚ × ℚ)
    (hok : calc_spatial_component step_count rect_sizes num_frames atn = .ok out) :
    ∀ i < step_count, ∀ e ∈ rect_sizes.getD i [], ∃ b, e = SizeRect.flat b := by
  unfold calc_spatial_component at hok
  cases hl : spatial_loop rect_sizes num_frames atn (List.range step_count)
      (0, 0, 0, 0) with
  | error err => rw [hl, exc_bind_error] at hok; cases hok
  | ok acc =>
    intro i hi e he
    obtain ⟨entries, hget, hflat⟩ := spatial_loop_ok_flat hl i (List.mem_range.mpr hi)
    have hgd : rect_sizes.getD i [] = entries := by
      rw [List.getD_eq_getElem?_getD, ← List.get?_eq_getElem?, hget]
      rfl
    rw [hgd] at he
    exact hflat e he

/-- C10 witness: on the concrete successful run of the spatial
aggregator over one cycle holding the single flat record `[3, 4, 0, 0]`,
the theorem applies and exhibits the one-box form of that entry. -/
theorem spatial_requires_single_box_witness :
    ∃ b, SizeRect.flat (⟨3, 4, 0, 0⟩ : Box) = SizeRect.flat b := by
  have hok : calc_spatial_component 1 [[SizeRect.flat ⟨3, 4, 0, 0⟩]] [1] id
      = .ok (6, 8, 8 / 3, 8 / 3) := by
    simp only [calc_spatial_component, spatial_loop, spatial_cycle, sumElem, pyMap,
      entryElem, pySum, sumAtan, sumRatio, entryRatio, pyIndex, pyDiv,
      List.range_succ, List.range_zero, List.nil_append, List.get?,
      bind, Except.bind, pure, Except.pure, List.map, List.sum, id]
    norm_num
  exact spatial_requires_single_box 1 [[SizeRect.flat ⟨3, 4, 0, 0⟩]] [1] id
    (6, 8, 8 / 3, 8 / 3) hok 0 (by norm_num) (SizeRect.flat ⟨3, 4, 0, 0⟩)
    (by decide)

end Gait
